import Mathlib

/-!
Verification of the apex mesh-overlay agent's reconciliation core.

The definitions below are a shallow embedding of the Go sources:

* `internal/util/ip_utils.go` — the address classifiers, together with a
  model of the Go standard library's `net.ParseIP`/`IP.To4`;
* `internal/apex/utils.go` — the NAT detector `IsNAT`;
* `internal/nexodus/utils_darwin.go` — the Darwin route operations;
* the exit-node NAT manager (`addExitDestinationTable` and friends) and
  the exit-node origin tracker `updateExitNodeOrigins`;
* the reconciler entry point `DeployWireguardConfig`.

External effects (`RunCommand`, `policyCmd`, STUN and socket probes,
`setupInterface`, `processSecurityGroupRules`) are modelled as oracle
parameters: a function from the issued command to its outcome, or the
`Except`-typed outcome of the call itself, so every control-flow decision
of the Go code is reproduced exactly while the outside world stays free.
-/

namespace Apex

/-- Outcome of a Go call returning `(value, error)`: `Except.error e`
models a non-nil error, `Except.ok v` a nil error with result `v`. -/
abbrev GoResult := Except String String

/-! ## `internal/apex/utils.go`: operating systems and the NAT detector -/

/-- `OperatingSystem` of `internal/apex/utils.go`. -/
inductive OperatingSystem where
  | Linux
  | Darwin
  | Windows
deriving DecidableEq, Repr

/-- The Go method `OperatingSystem.String()`: lower-case name of the OS
(the `default` branch returns `"unsupported"` and is unreachable for the
three declared constants). -/
def OperatingSystem.str : OperatingSystem → String
  | .Linux => "linux"
  | .Darwin => "darwin"
  | .Windows => "windows"

/-- Tail of `IsNAT` after `hostIP` is settled: call `GetPubIPv4` and
compare.  Mirrors lines 151–158 of `internal/apex/utils.go`: a probe
failure is returned as `(false, err)`; otherwise the result is
`(hostIP != pubIP, nil)`. -/
def isNatFinish (hostIP : String) (getPubIPv4 : GoResult) : Bool × Option String :=
  match getPubIPv4 with
  | .error e => (false, some e)
  | .ok pubIP => if hostIP ≠ pubIP then (true, none) else (false, none)

/-- The `if nodeOS == Linux.String()` step of `IsNAT`: on Linux the host
address comes from `discoverLinuxAddress` (failure returns `(false, err)`),
otherwise `hostIP` is left as it was. -/
def isNatStepLinux (nodeOS hostIP : String) (discoverLinux getPubIPv4 : GoResult) :
    Bool × Option String :=
  if nodeOS = OperatingSystem.Linux.str then
    match discoverLinux with
    | .error e => (false, some e)
    | .ok v => isNatFinish v getPubIPv4
  else isNatFinish hostIP getPubIPv4

/-- The `if nodeOS == Windows.String()` step of `IsNAT`: on Windows the
host address comes from `discoverGenericIPv4` (failure returns
`(false, err)`). -/
def isNatStepWindows (nodeOS hostIP : String) (discoverGeneric discoverLinux getPubIPv4 : GoResult) :
    Bool × Option String :=
  if nodeOS = OperatingSystem.Windows.str then
    match discoverGeneric with
    | .error e => (false, some e)
    | .ok v => isNatStepLinux nodeOS v discoverLinux getPubIPv4
  else isNatStepLinux nodeOS hostIP discoverLinux getPubIPv4

/-- `IsNAT` of `internal/apex/utils.go` (lines 129–159).  The three probe
calls are oracle parameters: `discoverGeneric` is the outcome of
`discoverGenericIPv4` (used on Darwin and Windows), `discoverLinux` the
outcome of `discoverLinuxAddress(...).String()`, and `getPubIPv4` the
outcome of the STUN probe `GetPubIPv4`.  The returned pair models Go's
`(bool, error)` with the error as an `Option`. -/
def IsNAT (nodeOS : String) (discoverGeneric discoverLinux getPubIPv4 : GoResult) :
    Bool × Option String :=
  if nodeOS = OperatingSystem.Darwin.str then
    match discoverGeneric with
    | .error e => (false, some e)
    | .ok v => isNatStepWindows nodeOS v discoverGeneric discoverLinux getPubIPv4
  else isNatStepWindows nodeOS "" discoverGeneric discoverLinux getPubIPv4

/-! ## `internal/nexodus/utils_darwin.go`: route operations

`RunCommand` is modelled as an oracle `env : List String → GoResult`
mapping the argv of the spawned command to its combined outcome. -/

/-- Environment of external commands: argv to outcome. -/
abbrev CmdEnv := List String → GoResult

/-- `RouteExistsOS` of `internal/nexodus/utils_darwin.go` (lines 13–16):
`return false, nil` for every input. -/
def RouteExistsOS (_s : String) : Bool × Option String :=
  (false, none)

/-- Argv issued by the Darwin `AddRoute`. -/
def darwinAddRouteArgv (prefix_ dev : String) : List String :=
  ["route", "-q", "-n", "add", "-inet", prefix_, "-interface", dev]

/-- Argv issued by the Darwin `DeleteRoute`. -/
def darwinDeleteRouteArgv (prefix_ dev : String) : List String :=
  ["route", "-q", "-n", "delete", "-inet", prefix_, "-interface", dev]

/-- `AddRoute` of `internal/nexodus/utils_darwin.go` (lines 19–26): run
the `route` command and wrap any failure as `"v4 route add failed: "`;
`none` models a nil error. -/
def AddRoute (env : CmdEnv) (prefix_ dev : String) : Option String :=
  match env (darwinAddRouteArgv prefix_ dev) with
  | .error e => some ("v4 route add failed: " ++ e)
  | .ok _ => none

/-- `DeleteRoute` of `internal/nexodus/utils_darwin.go` (lines 62–69):
run the `route` command and wrap any failure as `"no route deleted: "`. -/
def DeleteRoute (env : CmdEnv) (prefix_ dev : String) : Option String :=
  match env (darwinDeleteRouteArgv prefix_ dev) with
  | .error e => some ("no route deleted: " ++ e)
  | .ok _ => none

/-! ## `internal/util/ip_utils.go`: address classifiers

The classifiers call the Go standard library `net.ParseIP` and `IP.To4`.
Those are modelled byte by byte after Go 1.20 (`net/ip.go` delegating to
`net/netip.ParseAddr`): an address is a list of byte values, `ParseIP`
always yields 16 bytes (IPv4 results are v4-in-v6 mapped via `As16`), and
parse failure is `none`. -/

/-- Value of a decimal digit character, `none` for non-digits. -/
def decDigitVal (c : Char) : Option Nat :=
  if _h : c.toNat ≥ 48 ∧ c.toNat ≤ 57 then some (c.toNat - 48) else none

/-- Value of a hexadecimal digit character, `none` otherwise (mirrors the
three character-class cases of `netip.parseIPv6`). -/
def hexDigitVal (c : Char) : Option Nat :=
  if c.toNat ≥ 48 ∧ c.toNat ≤ 57 then some (c.toNat - 48)
  else if c.toNat ≥ 97 ∧ c.toNat ≤ 102 then some (c.toNat - 97 + 10)
  else if c.toNat ≥ 65 ∧ c.toNat ≤ 70 then some (c.toNat - 65 + 10)
  else none

/-- `netip.parseIPv4Fields` (Go 1.20): parse a dotted-decimal quad.
`val` is the value of the current field, `digLen` its digit count so far,
and `fields` the completed fields; a leading zero, a field over 255, an
empty field, a fifth field, or a stray character all fail. -/
def parseIPv4Fields : List Char → Nat → Nat → List Nat → Option (List Nat)
  | [], val, _digLen, fields =>
    if fields.length < 3 then none else some (fields ++ [val])
  | c :: rest, val, digLen, fields =>
    match decDigitVal c with
    | some d =>
      if digLen = 1 ∧ val = 0 then none
      else
        let val2 := val * 10 + d
        if val2 > 255 then none
        else parseIPv4Fields rest val2 (digLen + 1) fields
    | none =>
      if c = '.' then
        if digLen = 0 then none
        else if rest = [] then none
        else if fields.length = 3 then none
        else parseIPv4Fields rest 0 0 (fields ++ [val])
      else none

/-- `As16` of an IPv4 address: the v4-in-v6 mapped 16-byte form
`::ffff:a.b.c.d`, as `net.ParseIP` returns for dotted-quad input. -/
def v4In6 (fields : List Nat) : List Nat :=
  List.replicate 10 0 ++ [255, 255] ++ fields

/-- The hex-digit scan at the head of each field in `netip.parseIPv6`:
consume hex digits, failing on a fifth digit or a value ≥ 2^16; return
the accumulated value, the number of digits, and the unconsumed rest. -/
def scanHexField : List Char → Nat → Nat → Option (Nat × Nat × List Char)
  | [], acc, off => some (acc, off, [])
  | c :: rest, acc, off =>
    match hexDigitVal c with
    | some d =>
      let acc2 := acc * 16 + d
      if off > 3 ∨ acc2 > 65535 then none
      else scanHexField rest acc2 (off + 1)
    | none => some (acc, off, c :: rest)

/-- Main loop of `netip.parseIPv6` (Go 1.20), one iteration per
colon-separated field while fewer than 16 bytes are filled.  `ip` is the
list of bytes filled so far (its length is Go's `i`) and `ellipsis` the
byte position of a `::` if one was seen.  Returns the leftover input,
bytes and ellipsis for post-processing, or `none` on a parse error. -/
def parseIPv6Loop (s : List Char) (ip : List Nat) (ellipsis : Option Nat) :
    Option (List Char × List Nat × Option Nat) :=
  if _h : ip.length < 16 then
    match scanHexField s 0 0 with
    | none => none
    | some (acc, off, rest) =>
      if off = 0 then none
      else if rest.head? = some '.' then
        if ellipsis = none ∧ ip.length ≠ 12 then none
        else if ip.length + 4 > 16 then none
        else
          match parseIPv4Fields s 0 0 [] with
          | none => none
          | some f4 => some ([], ip ++ f4, ellipsis)
      else
        let ip2 := ip ++ [acc / 256, acc % 256]
        match rest with
        | [] => some ([], ip2, ellipsis)
        | ':' :: rest2 =>
          match rest2 with
          | [] => none
          | ':' :: rest3 =>
            if ellipsis ≠ none then none
            else if rest3 = [] then some ([], ip2, some ip2.length)
            else parseIPv6Loop rest3 ip2 (some ip2.length)
          | _ => parseIPv6Loop rest2 ip2 ellipsis
        | _ => none
  else some (s, ip, ellipsis)
termination_by 16 - ip.length
decreasing_by all_goals simp [List.length_append]; omega

/-- End of `netip.parseIPv6`: a short address needs an ellipsis, which
expands to `16 - i` zero bytes at its recorded position; a full address
must not contain one. -/
def parseIPv6Post (ip : List Nat) (ellipsis : Option Nat) : Option (List Nat) :=
  if ip.length < 16 then
    match ellipsis with
    | none => none
    | some e => some (ip.take e ++ List.replicate (16 - ip.length) 0 ++ ip.drop e)
  else if ellipsis ≠ none then none
  else some ip

/-- `netip.parseIPv6` as reachable from `net.ParseIP`: a `%` zone makes
`net.ParseIP` fail (it rejects any address with a non-empty zone, and an
empty zone is itself a parse error), `::` alone is the unspecified
address, a leading `::` records an ellipsis at position 0, and leftover
input after the loop is a parse error. -/
def goParseIPv6 (s0 : List Char) : Option (List Nat) :=
  if s0.contains '%' then none
  else
    match s0 with
    | ':' :: ':' :: rest =>
      if rest = [] then some (List.replicate 16 0)
      else
        match parseIPv6Loop rest [] (some 0) with
        | none => none
        | some (srem, ip, ell) => if srem = [] then parseIPv6Post ip ell else none
    | _ =>
      match parseIPv6Loop s0 [] none with
      | none => none
      | some (srem, ip, ell) => if srem = [] then parseIPv6Post ip ell else none

/-- Dispatch loop of `netip.ParseAddr`: the first `.`, `:` or `%` in the
string decides the parse, `%` and a string with none of them fail. -/
def ipDispatchChar : List Char → Option Char
  | [] => none
  | c :: rest => if c = '.' ∨ c = ':' ∨ c = '%' then some c else ipDispatchChar rest

/-- `net.ParseIP` (Go 1.20): dispatch on the first special character; a
dotted quad comes back in its 16-byte v4-in-v6 mapped form. -/
def goParseIP (s : String) : Option (List Nat) :=
  match ipDispatchChar s.toList with
  | some '.' => (parseIPv4Fields s.toList 0 0 []).map v4In6
  | some ':' => goParseIPv6 s.toList
  | _ => none

/-- `IP.To4` applied to the result of `ParseIP`, including the nil
receiver: a nil IP has no 4-byte form, a 16-byte IP only if it is
v4-in-v6 mapped (`::ffff:a.b.c.d`). -/
def goTo4 : Option (List Nat) → Option (List Nat)
  | none => none
  | some ip =>
    if ip.length = 4 then some ip
    else if ip.length = 16 ∧ ip.take 10 = List.replicate 10 0 ∧
        ip.get? 10 = some 255 ∧ ip.get? 11 = some 255 then
      some (ip.drop 12)
    else none

/-- `IsIPv4Address` of `internal/util/ip_utils.go` (lines 8–12):
`net.ParseIP(addr).To4() != nil`. -/
def IsIPv4Address (addr : String) : Bool :=
  (goTo4 (goParseIP addr)).isSome

/-- `IsIPv6Address` of `internal/util/ip_utils.go` (lines 14–18):
`net.ParseIP(addr).To4() == nil`. -/
def IsIPv6Address (addr : String) : Bool :=
  (goTo4 (goParseIP addr)).isNone

/-! ## Exit-node NAT manager (`src/unnamed/part_002`)

`policyCmd` spawns `nft` with the given arguments; it is modelled as the
command oracle `env` together with an explicit trace of every argv that
was issued, so that ordering and fail-fast behaviour are visible. -/

/-- The dedicated nftables table name of the exit-node NAT manager (the
file's own header comments spell it out as `nexodus-exit-node`). -/
def nfExitNodeTable : String := "nexodus-exit-node"

/-- The WireGuard tunnel interface name used by the forward accept rule
(`wg0`, per the header comment of the same file). -/
def wgIface : String := "wg0"

/-- `policyCmd`: issue one nftables command; the argv is appended to the
trace and the oracle decides the outcome. -/
def policyCmd (env : CmdEnv) (tr : List (List String)) (args : List String) :
    List (List String) × GoResult :=
  (tr ++ [args], env args)

/-- Argv of step 1: create the dedicated NAT table. -/
def natTableArgv : List String := ["add", "table", "inet", nfExitNodeTable]

/-- Argv of step 2: the prerouting chain (`nat` hook prerouting). -/
def preroutingChainArgv : List String :=
  ["add", "chain", "inet", nfExitNodeTable, "prerouting", "\x7b", "type", "nat",
   "hook", "prerouting", "priority", "dstnat", ";", "\x7d"]

/-- Argv of step 3: the postrouting chain (`nat` hook postrouting). -/
def postroutingChainArgv : List String :=
  ["add", "chain", "inet", nfExitNodeTable, "postrouting", "\x7b", "type", "nat",
   "hook", "postrouting", "priority", "srcnat", ";", "\x7d"]

/-- Argv of step 4: the forward chain (`filter` hook forward). -/
def forwardChainArgv : List String :=
  ["add", "chain", "inet", nfExitNodeTable, "forward", "\x7b", "type", "filter",
   "hook", "forward", "priority", "filter", ";", "\x7d"]

/-- Argv of step 5: the postrouting masquerade rule on the physical
egress interface. -/
def postroutingRuleArgv (phyIface : String) : List String :=
  ["add", "rule", "inet", nfExitNodeTable, "postrouting", "oifname", phyIface, "masquerade"]

/-- Argv of step 6: the forward accept rule on the tunnel interface. -/
def forwardRuleArgv : List String :=
  ["add", "rule", "inet", nfExitNodeTable, "forward", "iifname", wgIface, "accept"]

/-- `addExitDestinationTable` (part_002 lines 17–23). -/
def addExitDestinationTable (env : CmdEnv) (tr : List (List String)) :
    List (List String) × Except String Unit :=
  match policyCmd env tr natTableArgv with
  | (tr2, .error e) =>
    (tr2, .error ("failed to add nftables table " ++ nfExitNodeTable ++ ": " ++ e))
  | (tr2, .ok _) => (tr2, .ok ())

/-- `addExitOriginPreroutingChain` (part_002 lines 25–31). -/
def addExitOriginPreroutingChain (env : CmdEnv) (tr : List (List String)) :
    List (List String) × Except String Unit :=
  match policyCmd env tr preroutingChainArgv with
  | (tr2, .error e) => (tr2, .error ("failed to add nftables chain nexodus-exit-node: " ++ e))
  | (tr2, .ok _) => (tr2, .ok ())

/-- `addExitOriginPostroutingChain` (part_002 lines 33–39). -/
def addExitOriginPostroutingChain (env : CmdEnv) (tr : List (List String)) :
    List (List String) × Except String Unit :=
  match policyCmd env tr postroutingChainArgv with
  | (tr2, .error e) => (tr2, .error ("failed to add nftables chain nexodus-exit-node: " ++ e))
  | (tr2, .ok _) => (tr2, .ok ())

/-- `addExitOriginForwardChain` (part_002 lines 41–47). -/
def addExitOriginForwardChain (env : CmdEnv) (tr : List (List String)) :
    List (List String) × Except String Unit :=
  match policyCmd env tr forwardChainArgv with
  | (tr2, .error e) => (tr2, .error ("failed to add nftables chain nexodus-exit-node: " ++ e))
  | (tr2, .ok _) => (tr2, .ok ())

/-- `addExitOriginPostroutingRule` (part_002 lines 49–55). -/
def addExitOriginPostroutingRule (env : CmdEnv) (tr : List (List String)) (phyIface : String) :
    List (List String) × Except String Unit :=
  match policyCmd env tr (postroutingRuleArgv phyIface) with
  | (tr2, .error e) => (tr2, .error ("failed to add nftables rule nexodus-exit-node: " ++ e))
  | (tr2, .ok _) => (tr2, .ok ())

/-- `addExitOriginForwardRule` (part_002 lines 57–63). -/
def addExitOriginForwardRule (env : CmdEnv) (tr : List (List String)) :
    List (List String) × Except String Unit :=
  match policyCmd env tr forwardRuleArgv with
  | (tr2, .error e) => (tr2, .error ("failed to add nftables rule nexodus-exit-node: " ++ e))
  | (tr2, .ok _) => (tr2, .ok ())

/-- Modelled from the spec: the exit-node NAT setup sequence of spec
§4.4, whose orchestrating caller is not among the provided sources (only
the six step functions above are).  Per the spec it runs, in order,
table creation, prerouting chain, postrouting chain, forward chain,
postrouting masquerade rule, forward accept rule, and each step fails
fast — a failed step's error is returned and no later step runs. -/
def exitNodeNatSetup (env : CmdEnv) (phyIface : String) :
    List (List String) × Except String Unit :=
  match addExitDestinationTable env [] with
  | (tr, .error e) => (tr, .error e)
  | (tr, .ok _) =>
    match addExitOriginPreroutingChain env tr with
    | (tr, .error e) => (tr, .error e)
    | (tr, .ok _) =>
      match addExitOriginPostroutingChain env tr with
      | (tr, .error e) => (tr, .error e)
      | (tr, .ok _) =>
        match addExitOriginForwardChain env tr with
        | (tr, .error e) => (tr, .error e)
        | (tr, .ok _) =>
          match addExitOriginPostroutingRule env tr phyIface with
          | (tr, .error e) => (tr, .error e)
          | (tr, .ok _) =>
            match addExitOriginForwardRule env tr with
            | (tr, .error e) => (tr, .error e)
            | (tr, .ok _) => (tr, .ok ())

/-! ## Exit-node origin tracker (`src/unnamed/part_002` lines 83–118) -/

/-- The fields of `wgPeerConfig` that the code in scope reads. -/
structure wgPeerConfig where
  PublicKey : String
  Endpoint : String
  AllowedIPs : List String
deriving DecidableEq, Repr

/-- State held in `nx.exitNode`. -/
structure ExitNodeState where
  exitNodeExists : Bool
  exitNodeOrigins : List wgPeerConfig
deriving DecidableEq, Repr

/-- The loop body of `updateExitNodeOrigins`: walk the origin list, and
at the first entry whose `PublicKey` equals the new peer's, overwrite
that entry's `Endpoint` in place and stop (`break`); if the walk finds
no match, append the new peer at the end. -/
def updateExitNodeOriginsList : List wgPeerConfig → wgPeerConfig → List wgPeerConfig
  | [], newPeer => [newPeer]
  | p :: rest, newPeer =>
    if p.PublicKey = newPeer.PublicKey then { p with Endpoint := newPeer.Endpoint } :: rest
    else p :: updateExitNodeOriginsList rest newPeer

/-- `updateExitNodeOrigins` (the active definition, part_002 lines
83–118): set `exitNodeExists`, then update-or-append by public key. -/
def updateExitNodeOrigins (nx : ExitNodeState) (newPeer : wgPeerConfig) : ExitNodeState :=
  { exitNodeExists := true,
    exitNodeOrigins := updateExitNodeOriginsList nx.exitNodeOrigins newPeer }

/-! ## `DeployWireguardConfig` (third chunk of
`src/internal/handlers/security_group_test.go`, lines 313–355)

The side effects are modelled as a trace of events in program order:
`setupInterface` for the interface rebuild, `securityGroupRules` for
`processSecurityGroupRules`, and `peerRoute`/`peerTunnel` for
`handlePeerRoute`/`handlePeerTunnel` on a given peer.  The outcomes of
the two fallible steps are oracle parameters. -/

/-- The fields of `public.ModelsDevice` that `DeployWireguardConfig`
reads from the fresh peer list. -/
structure ModelsDevice where
  Id : String
  PublicKey : String
deriving DecidableEq, Repr

/-- One observable side effect of a reconciliation pass. -/
inductive DeployEvent where
  | setupInterface
  | securityGroupRules
  | peerRoute (peer : wgPeerConfig)
  | peerTunnel (peer : wgPeerConfig)
deriving DecidableEq, Repr

/-- Route and tunnel events are the per-peer convergence actions. -/
def isPeerEvent : DeployEvent → Bool
  | .peerRoute _ => true
  | .peerTunnel _ => true
  | _ => false

/-- The fields of the `Nexodus` agent state that
`DeployWireguardConfig` reads: the cached WireGuard peer configuration
(`ax.wgConfig.Peers`), the assigned tunnel address `ax.TunnelIP`, the
live interface address `ax.getIPv4Iface(ax.tunnelIface).String()`, the
assigned security group id and the node's own WireGuard public key. -/
structure Nexodus where
  wgConfigPeers : List wgPeerConfig
  TunnelIP : String
  ifaceIPv4 : String
  securityGroupId : String
  wireguardPubKey : String
deriving DecidableEq, Repr

/-- The `firstTime` loop: route and tunnel events for every cached peer,
in order, with no key comparison of any kind. -/
def deployFirstTimeEvents (peers : List wgPeerConfig) : List DeployEvent :=
  peers.flatMap fun p => [.peerRoute p, .peerTunnel p]

/-- The diff loop of the non-first path: for every fresh peer with a
non-empty id, every cached peer with the same public key gets its route
and tunnel re-applied — unless that key equals the local node's own. -/
def deployDiffEvents (cfgPeers : List wgPeerConfig) (localKey : String)
    (newPeers : List ModelsDevice) : List DeployEvent :=
  newPeers.flatMap fun np =>
    if np.Id ≠ "" then
      cfgPeers.flatMap fun p =>
        if p.PublicKey = np.PublicKey ∧ np.PublicKey ≠ localKey then
          [.peerRoute p, .peerTunnel p]
        else []
    else []

/-- Peer phase of `DeployWireguardConfig` (lines 332–354): the full
install on `firstTime`, the cache diff otherwise; both return nil. -/
def deployPeersPhase (ax : Nexodus) (newPeers : List ModelsDevice) (firstTime : Bool)
    (tr : List DeployEvent) : List DeployEvent × Option String :=
  if firstTime then (tr ++ deployFirstTimeEvents ax.wgConfigPeers, none)
  else (tr ++ deployDiffEvents ax.wgConfigPeers ax.wireguardPubKey newPeers, none)

/-- Security-group step of `DeployWireguardConfig` (lines 325–330): on
Linux with a non-empty assigned group, run
`processSecurityGroupRules` and return its error if it fails. -/
def deploySecurityGroupPhase (ax : Nexodus) (goos : String) (sgRes : Except String Unit)
    (newPeers : List ModelsDevice) (firstTime : Bool) (tr : List DeployEvent) :
    List DeployEvent × Option String :=
  if ax.securityGroupId ≠ "" ∧ goos = OperatingSystem.Linux.str then
    match sgRes with
    | .error e => (tr ++ [DeployEvent.securityGroupRules], some e)
    | .ok _ => deployPeersPhase ax newPeers firstTime (tr ++ [DeployEvent.securityGroupRules])
  else deployPeersPhase ax newPeers firstTime tr

/-- `DeployWireguardConfig` (lines 313–355): rebuild the interface when
the tunnel address no longer matches the live interface address, apply
security-group rules, then converge peers.  `setupRes` and `sgRes` are
the outcomes of `ax.setupInterface()` and
`ax.processSecurityGroupRules()`; the returned pair is the event trace
and the Go error result. -/
def DeployWireguardConfig (ax : Nexodus) (goos : String) (setupRes sgRes : Except String Unit)
    (newPeers : List ModelsDevice) (firstTime : Bool) : List DeployEvent × Option String :=
  if ax.TunnelIP ≠ ax.ifaceIPv4 then
    match setupRes with
    | .error e => ([DeployEvent.setupInterface], some e)
    | .ok _ => deploySecurityGroupPhase ax goos sgRes newPeers firstTime [DeployEvent.setupInterface]
  else deploySecurityGroupPhase ax goos sgRes newPeers firstTime []

/-! ## Shared vocabulary for temporal statements and concrete fixtures -/

/-- `a` occurs at a strictly earlier position than (an occurrence of)
`b` in the trace `tr`. -/
def occursBefore {α : Type} (tr : List α) (a b : α) : Prop :=
  ∃ i j : Nat, i < j ∧ tr[i]? = some a ∧ tr[j]? = some b

/-- Command environment in which every spawned command succeeds. -/
def allOkEnv : CmdEnv := fun _ => Except.ok ""

/-- Command environment for the Darwin route tests: the add hits an
already-installed route and the delete a missing one, which the `route`
tool reports as failures. -/
def dupRouteEnv : CmdEnv := fun args =>
  if args = darwinAddRouteArgv "100.64.0.2/32" "utun8" then
    Except.error "route: writing to routing socket: File exists"
  else if args = darwinDeleteRouteArgv "100.64.0.2/32" "utun8" then
    Except.error "route: writing to routing socket: not in table"
  else Except.ok ""

/-- A peer record bearing the local node's own public key. -/
def selfPeer : wgPeerConfig :=
  { PublicKey := "SELFKEY", Endpoint := "10.0.0.2:51820", AllowedIPs := ["100.64.0.2/32"] }

/-- An ordinary remote peer record. -/
def peerA : wgPeerConfig :=
  { PublicKey := "KEYA", Endpoint := "10.0.0.3:51820", AllowedIPs := ["100.64.0.3/32"] }

/-- Agent state whose cached WireGuard config contains the node's own
key; tunnel and interface addresses agree and no security group is set. -/
def axSelf : Nexodus :=
  { wgConfigPeers := [selfPeer], TunnelIP := "100.64.0.1", ifaceIPv4 := "100.64.0.1",
    securityGroupId := "", wireguardPubKey := "SELFKEY" }

/-- Agent state with one remote peer and a non-empty security group. -/
def axGroup : Nexodus :=
  { wgConfigPeers := [peerA], TunnelIP := "100.64.0.1", ifaceIPv4 := "100.64.0.1",
    securityGroupId := "sg-1", wireguardPubKey := "LOCALKEY" }

/-- Agent state with one remote peer and no security group. -/
def axPlain : Nexodus :=
  { wgConfigPeers := [peerA], TunnelIP := "100.64.0.1", ifaceIPv4 := "100.64.0.1",
    securityGroupId := "", wireguardPubKey := "LOCALKEY" }

/-- Exit-node origin set holding two peers keyed `KEYA` and `KEYB`. -/
def exitStateAB : ExitNodeState :=
  { exitNodeExists := true,
    exitNodeOrigins :=
      [{ PublicKey := "KEYA", Endpoint := "10.0.0.3:51820", AllowedIPs := [] },
       { PublicKey := "KEYB", Endpoint := "10.0.0.4:51820", AllowedIPs := [] }] }

/-- A refreshed record for `KEYA` with a moved endpoint. -/
def peerAMoved : wgPeerConfig :=
  { PublicKey := "KEYA", Endpoint := "172.16.0.9:51820", AllowedIPs := [] }

/-! ## C10 — the Darwin route-existence capability is a stub -/

/-- C10: the Darwin implementation of the route-existence capability is
a stub — for every input prefix string, `RouteExistsOS` returns
`(false, nil)`, never consulting the routing table. -/
theorem routeExistsOS_is_stub (s : String) : RouteExistsOS s = (false, none) := rfl

/-! ## C4 — Darwin `AddRoute`/`DeleteRoute` and idempotence -/

/-- C4 counterexample: the claim that adding an existing route or
deleting a missing one "returns no error" is false on the Darwin code.
In `dupRouteEnv` the `route` tool reports the already-exists and
no-such-route conditions as command failures, and both wrappers surface
them as errors instead of swallowing them. -/
theorem darwin_route_not_idempotent :
    AddRoute dupRouteEnv "100.64.0.2/32" "utun8"
      = some "v4 route add failed: route: writing to routing socket: File exists" ∧
    DeleteRoute dupRouteEnv "100.64.0.2/32" "utun8"
      = some "no route deleted: route: writing to routing socket: not in table" ∧
    AddRoute dupRouteEnv "100.64.0.2/32" "utun8" ≠ none ∧
    DeleteRoute dupRouteEnv "100.64.0.2/32" "utun8" ≠ none := by
  refine ⟨rfl, rfl, by decide, by decide⟩

/-- C4 (amended): the Darwin `AddRoute`/`DeleteRoute` are thin wrappers
around the `route` command that swallow nothing — they return nil
exactly when the command invocation succeeds, and wrap every command
failure (already-exists and no-such-route conditions included) into a
surfaced error. -/
theorem darwin_route_wrappers_surface_failures (env : CmdEnv) (prefix_ dev : String) :
    (AddRoute env prefix_ dev = none ↔ ∃ v, env (darwinAddRouteArgv prefix_ dev) = Except.ok v) ∧
    (∀ e, env (darwinAddRouteArgv prefix_ dev) = Except.error e →
      AddRoute env prefix_ dev = some ("v4 route add failed: " ++ e)) ∧
    (DeleteRoute env prefix_ dev = none ↔ ∃ v, env (darwinDeleteRouteArgv prefix_ dev) = Except.ok v) ∧
    (∀ e, env (darwinDeleteRouteArgv prefix_ dev) = Except.error e →
      DeleteRoute env prefix_ dev = some ("no route deleted: " ++ e)) := by
  refine ⟨?_, ?_, ?_, ?_⟩
  · cases h : env (darwinAddRouteArgv prefix_ dev) <;> simp [AddRoute, h]
  · intro e he; simp [AddRoute, he]
  · cases h : env (darwinDeleteRouteArgv prefix_ dev) <;> simp [DeleteRoute, h]
  · intro e he; simp [DeleteRoute, he]

/-- C4 witness: the amended theorem evaluated in `dupRouteEnv` at a
concrete prefix and device. -/
theorem darwin_route_wrappers_surface_failures_witness :
    AddRoute dupRouteEnv "100.64.0.2/32" "utun8"
      = some ("v4 route add failed: " ++ "route: writing to routing socket: File exists") :=
  (darwin_route_wrappers_surface_failures dupRouteEnv "100.64.0.2/32" "utun8").2.1
    "route: writing to routing socket: File exists" rfl

/-! ## C2 — NAT detector behaviour when the STUN probe fails -/

/-- C2 counterexample: with working local discovery and a failing STUN
probe, `IsNAT` returns `(false, err)` — it does not return
`isNATed=true`, and it propagates the failure to the caller. -/
theorem isNat_stun_failure_counterexample :
    IsNAT "linux" (Except.ok "10.0.0.5") (Except.ok "10.0.0.5") (Except.error "stun probe timeout")
      = (false, some "stun probe timeout") ∧
    ¬ ((IsNAT "linux" (Except.ok "10.0.0.5") (Except.ok "10.0.0.5")
          (Except.error "stun probe timeout")).1 = true ∧
       (IsNAT "linux" (Except.ok "10.0.0.5") (Except.ok "10.0.0.5")
          (Except.error "stun probe timeout")).2 = none) := by
  refine ⟨rfl, by decide⟩

/-- C2 (amended): when the STUN probe fails (and no earlier discovery
step already failed), `IsNAT` returns `isNATed=false` together with the
probe's error — the failure is propagated to the caller, and it is the
caller's job to fall back to treating the node as NAT'd. -/
theorem isNat_stun_failure_propagates (nodeOS : String) (dg dl : GoResult) (e : String)
    (hdg : nodeOS = OperatingSystem.Darwin.str ∨ nodeOS = OperatingSystem.Windows.str →
      ∃ v, dg = Except.ok v)
    (hdl : nodeOS = OperatingSystem.Linux.str → ∃ v, dl = Except.ok v) :
    IsNAT nodeOS dg dl (Except.error e) = (false, some e) := by
  by_cases h1 : nodeOS = OperatingSystem.Darwin.str
  · obtain ⟨v, hv⟩ := hdg (Or.inl h1)
    subst h1
    simp [IsNAT, isNatStepWindows, isNatStepLinux, isNatFinish, hv, OperatingSystem.str]
  · by_cases h2 : nodeOS = OperatingSystem.Windows.str
    · obtain ⟨v, hv⟩ := hdg (Or.inr h2)
      subst h2
      simp [IsNAT, isNatStepWindows, isNatStepLinux, isNatFinish, hv, OperatingSystem.str, h1]
    · by_cases h3 : nodeOS = OperatingSystem.Linux.str
      · obtain ⟨v, hv⟩ := hdl h3
        subst h3
        simp [IsNAT, isNatStepWindows, isNatStepLinux, isNatFinish, hv, OperatingSystem.str, h1, h2]
      · simp [IsNAT, isNatStepWindows, isNatStepLinux, isNatFinish, h1, h2, h3]

/-- C2 witness: the amended theorem at a concrete Linux node whose
discovery succeeded and whose STUN probe timed out. -/
theorem isNat_stun_failure_propagates_witness :
    IsNAT "linux" (Except.ok "10.0.0.5") (Except.ok "10.0.0.5") (Except.error "stun probe timeout")
      = (false, some "stun probe timeout") :=
  isNat_stun_failure_propagates "linux" (Except.ok "10.0.0.5") (Except.ok "10.0.0.5")
    "stun probe timeout"
    (fun h => by rcases h with h | h <;> exact absurd h (by decide))
    (fun _ => ⟨"10.0.0.5", rfl⟩)

/-! ## C7 — NAT detector compares local and STUN-visible addresses -/

/-- Outcome of the final comparison of `IsNAT` when the STUN probe
succeeded. -/
theorem isNatFinish_ok (hip pip : String) :
    ((isNatFinish hip (Except.ok pip)).1 = true ↔ hip ≠ pip) ∧
    ((isNatFinish hip (Except.ok pip)).1 = false ↔ hip = pip) ∧
    (isNatFinish hip (Except.ok pip)).2 = none := by
  by_cases hp : hip = pip <;> simp [isNatFinish, hp]

/-- C7: when the local host address is obtained without error (by the
discovery call of the node's OS) and the STUN probe succeeds, `IsNAT`
returns `isNATed=false` exactly when the two addresses are equal,
`isNATed=true` exactly when they differ, and a nil error. -/
theorem isNat_compares_addresses (nodeOS hostIP pubIP : String) (dg dl : GoResult)
    (h : (nodeOS = OperatingSystem.Darwin.str ∧ dg = Except.ok hostIP) ∨
         (nodeOS = OperatingSystem.Windows.str ∧ dg = Except.ok hostIP) ∨
         (nodeOS = OperatingSystem.Linux.str ∧ dl = Except.ok hostIP)) :
    ((IsNAT nodeOS dg dl (Except.ok pubIP)).1 = true ↔ hostIP ≠ pubIP) ∧
    ((IsNAT nodeOS dg dl (Except.ok pubIP)).1 = false ↔ hostIP = pubIP) ∧
    (IsNAT nodeOS dg dl (Except.ok pubIP)).2 = none := by
  rcases h with ⟨hos, hdg⟩ | ⟨hos, hdg⟩ | ⟨hos, hdl⟩ <;> subst hos
  · have : IsNAT OperatingSystem.Darwin.str dg dl (Except.ok pubIP)
        = isNatFinish hostIP (Except.ok pubIP) := by
      simp [IsNAT, isNatStepWindows, isNatStepLinux, hdg, OperatingSystem.str]
    rw [this]; exact isNatFinish_ok hostIP pubIP
  · have : IsNAT OperatingSystem.Windows.str dg dl (Except.ok pubIP)
        = isNatFinish hostIP (Except.ok pubIP) := by
      simp [IsNAT, isNatStepWindows, isNatStepLinux, hdg, OperatingSystem.str]
    rw [this]; exact isNatFinish_ok hostIP pubIP
  · have : IsNAT OperatingSystem.Linux.str dg dl (Except.ok pubIP)
        = isNatFinish hostIP (Except.ok pubIP) := by
      simp [IsNAT, isNatStepWindows, isNatStepLinux, hdl, OperatingSystem.str]
    rw [this]; exact isNatFinish_ok hostIP pubIP

/-- C7 witness: a Linux node with differing local and public addresses
is classified as NAT'd with a nil error. -/
theorem isNat_compares_addresses_witness :
    (IsNAT "linux" (Except.ok "unused") (Except.ok "192.168.1.10") (Except.ok "203.0.113.7")).1
      = true ∧
    (IsNAT "linux" (Except.ok "unused") (Except.ok "192.168.1.10") (Except.ok "203.0.113.7")).2
      = none := by
  have h := isNat_compares_addresses "linux" "192.168.1.10" "203.0.113.7"
    (Except.ok "unused") (Except.ok "192.168.1.10") (Or.inr (Or.inr ⟨rfl, rfl⟩))
  exact ⟨h.1.mpr (by decide), h.2.2⟩

/-! ## C9 — the address classifiers are not validators -/

/-- C9: `IsIPv6Address` holds exactly when the string fails to parse as
(or convert to) an IPv4 address — it is the complement of
`IsIPv4Address` — and in particular every string that does not parse as
any IP address is classified as IPv6 and not IPv4. -/
theorem ip_classifiers_not_validators (s : String) :
    (IsIPv6Address s = !(IsIPv4Address s)) ∧
    (IsIPv6Address s = true ↔ goTo4 (goParseIP s) = none) ∧
    (goParseIP s = none → IsIPv6Address s = true ∧ IsIPv4Address s = false) := by
  refine ⟨?_, ?_, ?_⟩
  · unfold IsIPv6Address IsIPv4Address
    cases goTo4 (goParseIP s) <;> simp
  · unfold IsIPv6Address
    cases h : goTo4 (goParseIP s) <;> simp [h]
  · intro h
    unfold IsIPv6Address IsIPv4Address
    rw [h]
    simp [goTo4]

/-- C9 witness: the non-address strings `"abc"` and `""` do not parse,
and the classifiers call them IPv6 and not IPv4. -/
theorem ip_classifiers_not_validators_witness :
    (goParseIP "abc" = none ∧ IsIPv6Address "abc" = true ∧ IsIPv4Address "abc" = false) ∧
    (goParseIP "" = none ∧ IsIPv6Address "" = true ∧ IsIPv4Address "" = false) := by
  have h1 := (ip_classifiers_not_validators "abc").2.2 (by decide)
  have h2 := (ip_classifiers_not_validators "").2.2 (by decide)
  exact ⟨⟨by decide, h1.1, h1.2⟩, ⟨by decide, h2.1, h2.2⟩⟩

/-! ## C6 — the exit-node origin tracker is keyed by public key -/

/-- If some origin entry carries the new peer's key, the update rewrites
the endpoint of the first such entry in place and touches nothing else. -/
theorem updateExitNodeOriginsList_found (l : List wgPeerConfig) (np : wgPeerConfig)
    (h : ∃ q ∈ l, q.PublicKey = np.PublicKey) :
    ∃ l₁ q l₂, l = l₁ ++ q :: l₂ ∧ q.PublicKey = np.PublicKey ∧
      (∀ r ∈ l₁, r.PublicKey ≠ np.PublicKey) ∧
      updateExitNodeOriginsList l np = l₁ ++ { q with Endpoint := np.Endpoint } :: l₂ := by
  induction l with
  | nil => simp at h
  | cons p rest ih =>
    by_cases hp : p.PublicKey = np.PublicKey
    · exact ⟨[], p, rest, rfl, hp, by simp, by simp [updateExitNodeOriginsList, hp]⟩
    · obtain ⟨q, hq, hqk⟩ := h
      rcases List.mem_cons.mp hq with rfl | hq2
      · exact absurd hqk hp
      · obtain ⟨l₁, q2, l₂, he, hk, hnone, hupd⟩ := ih ⟨q, hq2, hqk⟩
        refine ⟨p :: l₁, q2, l₂, by rw [List.cons_append, he], hk, ?_, ?_⟩
        · intro r hr
          rcases List.mem_cons.mp hr with rfl | hr2
          · exact hp
          · exact hnone r hr2
        · simp [updateExitNodeOriginsList, hp, hupd]

/-- If no origin entry carries the new peer's key, the update appends
the new peer at the end. -/
theorem updateExitNodeOriginsList_notFound (l : List wgPeerConfig) (np : wgPeerConfig)
    (h : ∀ q ∈ l, q.PublicKey ≠ np.PublicKey) :
    updateExitNodeOriginsList l np = l ++ [np] := by
  induction l with
  | nil => rfl
  | cons p rest ih =>
    have hp := h p (by simp)
    simp [updateExitNodeOriginsList, hp, ih (fun q hq => h q (by simp [hq]))]

/-- C6: `updateExitNodeOrigins` keeps the origin set keyed by public
key.  When an entry with the new peer's key exists, that (first such)
entry's endpoint is overwritten in place — the length and the key
sequence are unchanged, so no second entry for the key appears; when no
entry matches, the new peer is appended; and a duplicate-free key set
stays duplicate-free. -/
theorem updateExitNodeOrigins_keyed (nx : ExitNodeState) (newPeer : wgPeerConfig) :
    ((∃ q ∈ nx.exitNodeOrigins, q.PublicKey = newPeer.PublicKey) →
      (updateExitNodeOrigins nx newPeer).exitNodeOrigins.length
        = nx.exitNodeOrigins.length ∧
      (updateExitNodeOrigins nx newPeer).exitNodeOrigins.map wgPeerConfig.PublicKey
        = nx.exitNodeOrigins.map wgPeerConfig.PublicKey ∧
      ∃ l₁ q l₂, nx.exitNodeOrigins = l₁ ++ q :: l₂ ∧ q.PublicKey = newPeer.PublicKey ∧
        (∀ r ∈ l₁, r.PublicKey ≠ newPeer.PublicKey) ∧
        (updateExitNodeOrigins nx newPeer).exitNodeOrigins
          = l₁ ++ { q with Endpoint := newPeer.Endpoint } :: l₂) ∧
    ((∀ q ∈ nx.exitNodeOrigins, q.PublicKey ≠ newPeer.PublicKey) →
      (updateExitNodeOrigins nx newPeer).exitNodeOrigins
        = nx.exitNodeOrigins ++ [newPeer]) ∧
    ((nx.exitNodeOrigins.map wgPeerConfig.PublicKey).Nodup →
      ((updateExitNodeOrigins nx newPeer).exitNodeOrigins.map wgPeerConfig.PublicKey).Nodup) := by
  refine ⟨?_, ?_, ?_⟩
  · intro h
    obtain ⟨l₁, q, l₂, he, hk, hn, hu⟩ :=
      updateExitNodeOriginsList_found nx.exitNodeOrigins newPeer h
    have hres : (updateExitNodeOrigins nx newPeer).exitNodeOrigins
        = l₁ ++ { q with Endpoint := newPeer.Endpoint } :: l₂ := hu
    refine ⟨?_, ?_, l₁, q, l₂, he, hk, hn, hres⟩
    · rw [hres, he]; simp
    · rw [hres, he]; simp
  · intro h
    exact updateExitNodeOriginsList_notFound nx.exitNodeOrigins newPeer h
  · intro hnd
    by_cases h : ∃ q ∈ nx.exitNodeOrigins, q.PublicKey = newPeer.PublicKey
    · obtain ⟨l₁, q, l₂, he, hk, hn, hu⟩ :=
        updateExitNodeOriginsList_found nx.exitNodeOrigins newPeer h
      have hres : (updateExitNodeOrigins nx newPeer).exitNodeOrigins
          = l₁ ++ { q with Endpoint := newPeer.Endpoint } :: l₂ := hu
      have hkeys : (updateExitNodeOrigins nx newPeer).exitNodeOrigins.map wgPeerConfig.PublicKey
          = nx.exitNodeOrigins.map wgPeerConfig.PublicKey := by
        rw [hres, he]; simp
      rw [hkeys]; exact hnd
    · push_neg at h
      have hres : (updateExitNodeOrigins nx newPeer).exitNodeOrigins
          = nx.exitNodeOrigins ++ [newPeer] :=
        updateExitNodeOriginsList_notFound nx.exitNodeOrigins newPeer h
      rw [hres, List.map_append, List.nodup_append]
      refine ⟨hnd, by simp, ?_⟩
      intro k hk1 hk2
      simp only [List.mem_map] at hk1
      obtain ⟨q, hq, rfl⟩ := hk1
      simp only [List.map_cons, List.map_nil, List.mem_singleton] at hk2
      exact h q hq hk2

/-- C6 witness: refreshing `KEYA` with a moved endpoint leaves a
two-entry set keyed `KEYA`, `KEYB`. -/
theorem updateExitNodeOrigins_keyed_witness :
    (updateExitNodeOrigins exitStateAB peerAMoved).exitNodeOrigins.length = 2 ∧
    (updateExitNodeOrigins exitStateAB peerAMoved).exitNodeOrigins.map wgPeerConfig.PublicKey
      = ["KEYA", "KEYB"] := by
  have h := (updateExitNodeOrigins_keyed exitStateAB peerAMoved).1 (by decide)
  exact ⟨h.1.trans (by decide), h.2.1.trans (by decide)⟩

/-! ## Structure of the `DeployWireguardConfig` trace -/

/-- Every trace of `DeployWireguardConfig` is a peer-event-free prefix
(the interface and security-group steps), either alone — when a step
failed — or followed by the peer events of the path selected by
`firstTime`. -/
theorem deploy_trace_split (ax : Nexodus) (goos : String) (setupRes sgRes : Except String Unit)
    (newPeers : List ModelsDevice) (firstTime : Bool) :
    ∃ pre, (∀ e ∈ pre, isPeerEvent e = false) ∧
      ((DeployWireguardConfig ax goos setupRes sgRes newPeers firstTime).1 = pre ∨
       (DeployWireguardConfig ax goos setupRes sgRes newPeers firstTime).1
         = pre ++ (if firstTime then deployFirstTimeEvents ax.wgConfigPeers
                   else deployDiffEvents ax.wgConfigPeers ax.wireguardPubKey newPeers)) := by
  unfold DeployWireguardConfig deploySecurityGroupPhase deployPeersPhase
  by_cases h1 : ax.TunnelIP ≠ ax.ifaceIPv4
  · rw [if_pos h1]
    cases setupRes with
    | error e => exact ⟨[DeployEvent.setupInterface], by decide, Or.inl rfl⟩
    | ok v =>
      by_cases h2 : ax.securityGroupId ≠ "" ∧ goos = OperatingSystem.Linux.str
      · rw [if_pos h2]
        cases sgRes with
        | error e2 =>
          exact ⟨[DeployEvent.setupInterface, DeployEvent.securityGroupRules], by decide,
            Or.inl (by simp)⟩
        | ok v2 =>
          refine ⟨[DeployEvent.setupInterface, DeployEvent.securityGroupRules], by decide,
            Or.inr ?_⟩
          cases firstTime <;> simp
      · rw [if_neg h2]
        refine ⟨[DeployEvent.setupInterface], by decide, Or.inr ?_⟩
        cases firstTime <;> simp
  · rw [if_neg h1]
    by_cases h2 : ax.securityGroupId ≠ "" ∧ goos = OperatingSystem.Linux.str
    · rw [if_pos h2]
      cases sgRes with
      | error e2 => exact ⟨[DeployEvent.securityGroupRules], by decide, Or.inl (by simp)⟩
      | ok v2 =>
        refine ⟨[DeployEvent.securityGroupRules], by decide, Or.inr ?_⟩
        cases firstTime <;> simp
    · rw [if_neg h2]
      refine ⟨[], by decide, Or.inr ?_⟩
      cases firstTime <;> simp

/-- Inversion for membership in the diff loop's events: any emitted
route or tunnel belongs to a cached peer whose key matches some fresh
peer with a non-empty id and differs from the local node's key. -/
theorem mem_deployDiffEvents {cfgPeers : List wgPeerConfig} {localKey : String}
    {newPeers : List ModelsDevice} {e : DeployEvent}
    (h : e ∈ deployDiffEvents cfgPeers localKey newPeers) :
    ∃ q np, np ∈ newPeers ∧ q ∈ cfgPeers ∧ q.PublicKey = np.PublicKey ∧
      np.PublicKey ≠ localKey ∧
      (e = DeployEvent.peerRoute q ∨ e = DeployEvent.peerTunnel q) := by
  simp only [deployDiffEvents, List.mem_flatMap] at h
  obtain ⟨np, hnp, h⟩ := h
  by_cases hid : np.Id ≠ ""
  · rw [if_pos hid] at h
    simp only [List.mem_flatMap] at h
    obtain ⟨q, hq, h⟩ := h
    by_cases hc : q.PublicKey = np.PublicKey ∧ np.PublicKey ≠ localKey
    · rw [if_pos hc] at h
      simp only [List.mem_cons, List.not_mem_nil, or_false] at h
      exact ⟨q, np, hnp, hq, hc.1, hc.2, h⟩
    · rw [if_neg hc] at h
      simp at h
  · rw [if_neg hid] at h
    simp at h

/-- The first-convergence events keep every route and tunnel under the
peer-event filter, in the cached order. -/
theorem filter_isPeerEvent_firstTime (peers : List wgPeerConfig) :
    (deployFirstTimeEvents peers).filter isPeerEvent = deployFirstTimeEvents peers := by
  induction peers with
  | nil => rfl
  | cons p rest ih =>
    simp only [deployFirstTimeEvents, List.flatMap_cons] at *
    rw [List.filter_append, ih]
    rfl

/-- An element of the suffix after an occurrence of `a` is preceded by
that occurrence. -/
theorem occursBefore_append_cons {α : Type} (pre : List α) (a : α) (suf : List α) (b : α)
    (hb : b ∈ suf) : occursBefore (pre ++ a :: suf) a b := by
  obtain ⟨k, hk, hbk⟩ := List.getElem_of_mem hb
  refine ⟨pre.length, pre.length + 1 + k, by omega, ?_, ?_⟩
  · rw [List.getElem?_append_right (Nat.le_refl _)]
    simp
  · rw [List.getElem?_append_right (by omega)]
    have h3 : pre.length + 1 + k - pre.length = k + 1 := by omega
    rw [h3, List.getElem?_cons_succ, List.getElem?_eq_getElem hk, hbk]

/-! ## C3 — first convergence installs the full configuration -/

/-- C3: with `firstTime=true` and both the interface step and the
security-group step succeeding (or not triggered), the pass returns nil
and its peer events are exactly one route and one tunnel per cached
peer, in cache order — no diffing against the fresh list. -/
theorem deploy_firstTime_full_install (ax : Nexodus) (goos : String)
    (setupRes sgRes : Except String Unit) (newPeers : List ModelsDevice)
    (hsetup : ax.TunnelIP ≠ ax.ifaceIPv4 → setupRes = Except.ok ())
    (hsg : ax.securityGroupId ≠ "" ∧ goos = OperatingSystem.Linux.str → sgRes = Except.ok ()) :
    (DeployWireguardConfig ax goos setupRes sgRes newPeers true).2 = none ∧
    (DeployWireguardConfig ax goos setupRes sgRes newPeers true).1.filter isPeerEvent
      = deployFirstTimeEvents ax.wgConfigPeers ∧
    ∀ p ∈ ax.wgConfigPeers,
      DeployEvent.peerRoute p ∈ (DeployWireguardConfig ax goos setupRes sgRes newPeers true).1 ∧
      DeployEvent.peerTunnel p ∈ (DeployWireguardConfig ax goos setupRes sgRes newPeers true).1 := by
  have hchar : ∃ pre, (∀ e ∈ pre, isPeerEvent e = false) ∧
      DeployWireguardConfig ax goos setupRes sgRes newPeers true
        = (pre ++ deployFirstTimeEvents ax.wgConfigPeers, none) := by
    unfold DeployWireguardConfig deploySecurityGroupPhase deployPeersPhase
    by_cases h1 : ax.TunnelIP ≠ ax.ifaceIPv4
    · have hs := hsetup h1
      subst hs
      rw [if_pos h1]
      by_cases h2 : ax.securityGroupId ≠ "" ∧ goos = OperatingSystem.Linux.str
      · have hg := hsg h2
        subst hg
        rw [if_pos h2]
        exact ⟨[DeployEvent.setupInterface, DeployEvent.securityGroupRules], by decide, by simp⟩
      · rw [if_neg h2]
        exact ⟨[DeployEvent.setupInterface], by decide, by simp⟩
    · rw [if_neg h1]
      by_cases h2 : ax.securityGroupId ≠ "" ∧ goos = OperatingSystem.Linux.str
      · have hg := hsg h2
        subst hg
        rw [if_pos h2]
        exact ⟨[DeployEvent.securityGroupRules], by decide, by simp⟩
      · rw [if_neg h2]
        exact ⟨[], by decide, by simp⟩
  obtain ⟨pre, hpre, heq⟩ := hchar
  refine ⟨by rw [heq], ?_, ?_⟩
  · rw [heq]
    show (pre ++ deployFirstTimeEvents ax.wgConfigPeers).filter isPeerEvent = _
    rw [List.filter_append, filter_isPeerEvent_firstTime]
    have hnil : pre.filter isPeerEvent = [] := by
      rw [List.filter_eq_nil_iff]
      intro a ha
      simp [hpre a ha]
    rw [hnil, List.nil_append]
  · intro p hp
    rw [heq]
    constructor
    · exact List.mem_append.mpr (Or.inr (List.mem_flatMap.mpr ⟨p, hp, by simp⟩))
    · exact List.mem_append.mpr (Or.inr (List.mem_flatMap.mpr ⟨p, hp, by simp⟩))

/-- C3 witness: a one-peer cache on first convergence yields exactly its
route and tunnel and a nil error. -/
theorem deploy_firstTime_full_install_witness :
    (DeployWireguardConfig axPlain "linux" (Except.ok ()) (Except.ok ()) [] true).2 = none ∧
    (DeployWireguardConfig axPlain "linux" (Except.ok ()) (Except.ok ()) [] true).1.filter
        isPeerEvent
      = deployFirstTimeEvents axPlain.wgConfigPeers := by
  have h := deploy_firstTime_full_install axPlain "linux" (Except.ok ()) (Except.ok ()) []
    (fun hc => absurd rfl hc) (fun hc => absurd rfl hc.1)
  exact ⟨h.1, h.2.1⟩

/-! ## C1 — self-exclusion of the local node's own key -/

/-- C1 counterexample: on the first-convergence path there is no
self-key check at all — with the node's own key present in the cached
configuration, `DeployWireguardConfig` with `firstTime=true` emits a
route and a tunnel for the local node's own key. -/
theorem deploy_self_skip_counterexample :
    selfPeer.PublicKey = axSelf.wireguardPubKey ∧
    DeployEvent.peerRoute selfPeer
      ∈ (DeployWireguardConfig axSelf "linux" (Except.ok ()) (Except.ok ()) [] true).1 ∧
    DeployEvent.peerTunnel selfPeer
      ∈ (DeployWireguardConfig axSelf "linux" (Except.ok ()) (Except.ok ()) [] true).1 := by
  decide

/-- C1 (amended): the self-exclusion holds on every subsequent cycle
(`firstTime=false`): no route and no tunnel event is ever emitted for a
peer bearing the local node's own public key.  (On the
first-convergence path every cached peer is deployed with no self-key
check.) -/
theorem deploy_self_skip_on_diff (ax : Nexodus) (goos : String)
    (setupRes sgRes : Except String Unit) (newPeers : List ModelsDevice) (p : wgPeerConfig)
    (hp : p.PublicKey = ax.wireguardPubKey) :
    DeployEvent.peerRoute p ∉ (DeployWireguardConfig ax goos setupRes sgRes newPeers false).1 ∧
    DeployEvent.peerTunnel p ∉ (DeployWireguardConfig ax goos setupRes sgRes newPeers false).1 := by
  obtain ⟨pre, hpre, hsplit⟩ := deploy_trace_split ax goos setupRes sgRes newPeers false
  have hdiff : ∀ e, e ∈ deployDiffEvents ax.wgConfigPeers ax.wireguardPubKey newPeers →
      (e = DeployEvent.peerRoute p ∨ e = DeployEvent.peerTunnel p) → False := by
    intro e hmem hform
    obtain ⟨q, np, _, _, hqk, hnpk, hev⟩ := mem_deployDiffEvents hmem
    have hq : q = p := by
      rcases hform with rfl | rfl
      · rcases hev with hev | hev
        · injection hev with h
          exact h.symm
        · simp at hev
      · rcases hev with hev | hev
        · simp at hev
        · injection hev with h
          exact h.symm
    subst hq
    exact hnpk (hqk.symm.trans hp)
  constructor <;> intro hmem
  · rcases hsplit with heq | heq
    · rw [heq] at hmem
      simpa [isPeerEvent] using hpre _ hmem
    · rw [heq] at hmem
      rcases List.mem_append.mp hmem with h | h
      · simpa [isPeerEvent] using hpre _ h
      · simp only [Bool.false_eq_true, if_false] at h
        exact hdiff _ h (Or.inl rfl)
  · rcases hsplit with heq | heq
    · rw [heq] at hmem
      simpa [isPeerEvent] using hpre _ hmem
    · rw [heq] at hmem
      rcases List.mem_append.mp hmem with h | h
      · simpa [isPeerEvent] using hpre _ h
      · simp only [Bool.false_eq_true, if_false] at h
        exact hdiff _ h (Or.inr rfl)

/-- C1 witness: on a subsequent cycle, a fresh list that names the local
node's own key produces no route event for it. -/
theorem deploy_self_skip_on_diff_witness :
    DeployEvent.peerRoute selfPeer
      ∉ (DeployWireguardConfig axSelf "linux" (Except.ok ()) (Except.ok ())
          [{ Id := "device-1", PublicKey := "SELFKEY" }] false).1 :=
  (deploy_self_skip_on_diff axSelf "linux" (Except.ok ()) (Except.ok ())
    [{ Id := "device-1", PublicKey := "SELFKEY" }] selfPeer rfl).1

/-! ## C8 — where in the pass the security-group rules are applied -/

/-- C8 counterexample: in a pass with a non-empty security group on
Linux, the security-group application is the first event of the trace —
before, not after, the peer routes and tunnels are installed. -/
theorem deploy_securityGroups_order_counterexample :
    (DeployWireguardConfig axGroup "linux" (Except.ok ()) (Except.ok ()) [] true).1
      = [DeployEvent.securityGroupRules, DeployEvent.peerRoute peerA,
         DeployEvent.peerTunnel peerA] ∧
    ¬ occursBefore (DeployWireguardConfig axGroup "linux" (Except.ok ()) (Except.ok ()) [] true).1
        (DeployEvent.peerRoute peerA) DeployEvent.securityGroupRules := by
  have htr : (DeployWireguardConfig axGroup "linux" (Except.ok ()) (Except.ok ()) [] true).1
      = [DeployEvent.securityGroupRules, DeployEvent.peerRoute peerA,
         DeployEvent.peerTunnel peerA] := by decide
  refine ⟨htr, ?_⟩
  rintro ⟨i, j, hij, hi, hj⟩
  rw [htr] at hi hj
  rcases j with _ | _ | _ | j
  · omega
  · simp at hj
  · simp at hj
  · simp [List.getElem?_cons_succ] at hj

/-- C8 (amended): in every pass where the node has a non-empty assigned
security group, the platform is Linux and the interface step does not
fail, the security-group rules are (re)applied — and this application
precedes every peer route/tunnel event of that cycle, rather than
following the peer convergence. -/
theorem deploy_securityGroups_precede_peers (ax : Nexodus) (goos : String)
    (setupRes sgRes : Except String Unit) (newPeers : List ModelsDevice) (firstTime : Bool)
    (h2 : ax.securityGroupId ≠ "" ∧ goos = OperatingSystem.Linux.str)
    (hsetup : ax.TunnelIP ≠ ax.ifaceIPv4 → setupRes = Except.ok ()) :
    DeployEvent.securityGroupRules
      ∈ (DeployWireguardConfig ax goos setupRes sgRes newPeers firstTime).1 ∧
    ∀ e ∈ (DeployWireguardConfig ax goos setupRes sgRes newPeers firstTime).1,
      isPeerEvent e = true →
      occursBefore (DeployWireguardConfig ax goos setupRes sgRes newPeers firstTime).1
        DeployEvent.securityGroupRules e := by
  have hchar : ∃ pre post, (∀ e ∈ pre, isPeerEvent e = false) ∧
      (DeployWireguardConfig ax goos setupRes sgRes newPeers firstTime).1
        = pre ++ DeployEvent.securityGroupRules :: post := by
    unfold DeployWireguardConfig deploySecurityGroupPhase deployPeersPhase
    by_cases h1 : ax.TunnelIP ≠ ax.ifaceIPv4
    · have hs := hsetup h1
      subst hs
      rw [if_pos h1, if_pos h2]
      cases sgRes with
      | error e2 => exact ⟨[DeployEvent.setupInterface], [], by decide, by simp⟩
      | ok v2 =>
        cases firstTime with
        | true =>
          exact ⟨[DeployEvent.setupInterface],
            deployFirstTimeEvents ax.wgConfigPeers, by decide, by simp⟩
        | false =>
          exact ⟨[DeployEvent.setupInterface],
            deployDiffEvents ax.wgConfigPeers ax.wireguardPubKey newPeers, by decide, by simp⟩
    · rw [if_neg h1, if_pos h2]
      cases sgRes with
      | error e2 => exact ⟨[], [], by decide, by simp⟩
      | ok v2 =>
        cases firstTime with
        | true => exact ⟨[], deployFirstTimeEvents ax.wgConfigPeers, by decide, by simp⟩
        | false =>
          exact ⟨[], deployDiffEvents ax.wgConfigPeers ax.wireguardPubKey newPeers,
            by decide, by simp⟩
  obtain ⟨pre, post, hpre, heq⟩ := hchar
  constructor
  · rw [heq]; simp
  · intro e he hpe
    rw [heq] at he ⊢
    rcases List.mem_append.mp he with h | h
    · rw [hpre e h] at hpe
      cases hpe
    · rcases List.mem_cons.mp h with rfl | h
      · simp [isPeerEvent] at hpe
      · exact occursBefore_append_cons pre _ post e h

/-- C8 witness: with a non-empty group on Linux, the rules are applied
and precede the route event of the cached peer. -/
theorem deploy_securityGroups_precede_peers_witness :
    DeployEvent.securityGroupRules
      ∈ (DeployWireguardConfig axGroup "linux" (Except.ok ()) (Except.ok ()) [] true).1 ∧
    occursBefore (DeployWireguardConfig axGroup "linux" (Except.ok ()) (Except.ok ()) [] true).1
      DeployEvent.securityGroupRules (DeployEvent.peerRoute peerA) := by
  have h := deploy_securityGroups_precede_peers axGroup "linux" (Except.ok ()) (Except.ok ())
    [] true ⟨by decide, rfl⟩ (fun hc => absurd rfl hc)
  exact ⟨h.1, h.2 (DeployEvent.peerRoute peerA) (by decide) rfl⟩

/-! ## C5 — exit-node NAT setup ordering and fail-fast -/

/-- C5: in every execution of the exit-node NAT setup sequence, the
dedicated table command precedes every other issued command (so no
chain before its table), the postrouting and forward rules are each
preceded by their owning chain's creation, and a command is only ever
issued after the previous one succeeded (fail-fast: nothing runs after
a failed step). -/
theorem exit_node_nat_setup_ordering (env : CmdEnv) (phyIface : String) :
    (∀ c ∈ (exitNodeNatSetup env phyIface).1, c ≠ natTableArgv →
      occursBefore (exitNodeNatSetup env phyIface).1 natTableArgv c) ∧
    (postroutingRuleArgv phyIface ∈ (exitNodeNatSetup env phyIface).1 →
      occursBefore (exitNodeNatSetup env phyIface).1 postroutingChainArgv
        (postroutingRuleArgv phyIface)) ∧
    (forwardRuleArgv ∈ (exitNodeNatSetup env phyIface).1 →
      occursBefore (exitNodeNatSetup env phyIface).1 forwardChainArgv forwardRuleArgv) ∧
    (∀ i c, (exitNodeNatSetup env phyIface).1[i + 1]? = some c →
      ∃ c2 v, (exitNodeNatSetup env phyIface).1[i]? = some c2 ∧ env c2 = Except.ok v) := by
  cases h1 : env natTableArgv with
  | error e1 =>
    have htr : (exitNodeNatSetup env phyIface).1 = [natTableArgv] := by
      simp [exitNodeNatSetup, addExitDestinationTable, policyCmd, h1]
    rw [htr]
    refine ⟨?_, ?_, ?_, ?_⟩
    · intro c hc hcne
      simp only [List.mem_singleton] at hc
      exact absurd hc hcne
    · intro hmem
      exact absurd hmem (by simp [postroutingRuleArgv, natTableArgv, nfExitNodeTable])
    · intro hmem
      exact absurd hmem (by decide)
    · intro i c hc
      simp at hc
  | ok v1 =>
  cases h2 : env preroutingChainArgv with
  | error e2 =>
    have htr : (exitNodeNatSetup env phyIface).1 = [natTableArgv, preroutingChainArgv] := by
      simp [exitNodeNatSetup, addExitDestinationTable, addExitOriginPreroutingChain,
        policyCmd, h1, h2]
    rw [htr]
    refine ⟨?_, ?_, ?_, ?_⟩
    · intro c hc hcne
      simp only [List.mem_cons, List.not_mem_nil, or_false] at hc
      rcases hc with rfl | rfl
      · exact absurd rfl hcne
      · exact ⟨0, 1, by omega, rfl, rfl⟩
    · intro hmem
      exact absurd hmem
        (by simp [postroutingRuleArgv, natTableArgv, preroutingChainArgv, nfExitNodeTable])
    · intro hmem
      exact absurd hmem (by decide)
    · intro i c hc
      rcases i with _ | i
      · exact ⟨natTableArgv, v1, rfl, h1⟩
      · simp at hc
  | ok v2 =>
  cases h3 : env postroutingChainArgv with
  | error e3 =>
    have htr : (exitNodeNatSetup env phyIface).1
        = [natTableArgv, preroutingChainArgv, postroutingChainArgv] := by
      simp [exitNodeNatSetup, addExitDestinationTable, addExitOriginPreroutingChain,
        addExitOriginPostroutingChain, policyCmd, h1, h2, h3]
    rw [htr]
    refine ⟨?_, ?_, ?_, ?_⟩
    · intro c hc hcne
      simp only [List.mem_cons, List.not_mem_nil, or_false] at hc
      rcases hc with rfl | rfl | rfl
      · exact absurd rfl hcne
      · exact ⟨0, 1, by omega, rfl, rfl⟩
      · exact ⟨0, 2, by omega, rfl, rfl⟩
    · intro hmem
      exact absurd hmem
        (by simp [postroutingRuleArgv, natTableArgv, preroutingChainArgv,
          postroutingChainArgv, nfExitNodeTable])
    · intro hmem
      exact absurd hmem (by decide)
    · intro i c hc
      rcases i with _ | _ | i
      · exact ⟨natTableArgv, v1, rfl, h1⟩
      · exact ⟨preroutingChainArgv, v2, rfl, h2⟩
      · simp at hc
  | ok v3 =>
  cases h4 : env forwardChainArgv with
  | error e4 =>
    have htr : (exitNodeNatSetup env phyIface).1
        = [natTableArgv, preroutingChainArgv, postroutingChainArgv, forwardChainArgv] := by
      simp [exitNodeNatSetup, addExitDestinationTable, addExitOriginPreroutingChain,
        addExitOriginPostroutingChain, addExitOriginForwardChain, policyCmd, h1, h2, h3, h4]
    rw [htr]
    refine ⟨?_, ?_, ?_, ?_⟩
    · intro c hc hcne
      simp only [List.mem_cons, List.not_mem_nil, or_false] at hc
      rcases hc with rfl | rfl | rfl | rfl
      · exact absurd rfl hcne
      · exact ⟨0, 1, by omega, rfl, rfl⟩
      · exact ⟨0, 2, by omega, rfl, rfl⟩
      · exact ⟨0, 3, by omega, rfl, rfl⟩
    · intro hmem
      exact absurd hmem
        (by simp [postroutingRuleArgv, natTableArgv, preroutingChainArgv,
          postroutingChainArgv, forwardChainArgv, nfExitNodeTable])
    · intro hmem
      exact absurd hmem (by decide)
    · intro i c hc
      rcases i with _ | _ | _ | i
      · exact ⟨natTableArgv, v1, rfl, h1⟩
      · exact ⟨preroutingChainArgv, v2, rfl, h2⟩
      · exact ⟨postroutingChainArgv, v3, rfl, h3⟩
      · simp at hc
  | ok v4 =>
  cases h5 : env (postroutingRuleArgv phyIface) with
  | error e5 =>
    have htr : (exitNodeNatSetup env phyIface).1
        = [natTableArgv, preroutingChainArgv, postroutingChainArgv, forwardChainArgv,
           postroutingRuleArgv phyIface] := by
      simp [exitNodeNatSetup, addExitDestinationTable, addExitOriginPreroutingChain,
        addExitOriginPostroutingChain, addExitOriginForwardChain,
        addExitOriginPostroutingRule, policyCmd, h1, h2, h3, h4, h5]
    rw [htr]
    refine ⟨?_, ?_, ?_, ?_⟩
    · intro c hc hcne
      simp only [List.mem_cons, List.not_mem_nil, or_false] at hc
      rcases hc with rfl | rfl | rfl | rfl | rfl
      · exact absurd rfl hcne
      · exact ⟨0, 1, by omega, rfl, rfl⟩
      · exact ⟨0, 2, by omega, rfl, rfl⟩
      · exact ⟨0, 3, by omega, rfl, rfl⟩
      · exact ⟨0, 4, by omega, rfl, rfl⟩
    · intro _
      exact ⟨2, 4, by omega, rfl, rfl⟩
    · intro hmem
      exact absurd hmem
        (by simp [forwardRuleArgv, natTableArgv, preroutingChainArgv, postroutingChainArgv,
          forwardChainArgv, postroutingRuleArgv, nfExitNodeTable, wgIface])
    · intro i c hc
      rcases i with _ | _ | _ | _ | i
      · exact ⟨natTableArgv, v1, rfl, h1⟩
      · exact ⟨preroutingChainArgv, v2, rfl, h2⟩
      · exact ⟨postroutingChainArgv, v3, rfl, h3⟩
      · exact ⟨forwardChainArgv, v4, rfl, h4⟩
      · simp at hc
  | ok v5 =>
  cases h6 : env forwardRuleArgv with
  | error e6 =>
    have htr : (exitNodeNatSetup env phyIface).1
        = [natTableArgv, preroutingChainArgv, postroutingChainArgv, forwardChainArgv,
           postroutingRuleArgv phyIface, forwardRuleArgv] := by
      simp [exitNodeNatSetup, addExitDestinationTable, addExitOriginPreroutingChain,
        addExitOriginPostroutingChain, addExitOriginForwardChain,
        addExitOriginPostroutingRule, addExitOriginForwardRule, policyCmd,
        h1, h2, h3, h4, h5, h6]
    rw [htr]
    refine ⟨?_, ?_, ?_, ?_⟩
    · intro c hc hcne
      simp only [List.mem_cons, List.not_mem_nil, or_false] at hc
      rcases hc with rfl | rfl | rfl | rfl | rfl | rfl
      · exact absurd rfl hcne
      · exact ⟨0, 1, by omega, rfl, rfl⟩
      · exact ⟨0, 2, by omega, rfl, rfl⟩
      · exact ⟨0, 3, by omega, rfl, rfl⟩
      · exact ⟨0, 4, by omega, rfl, rfl⟩
      · exact ⟨0, 5, by omega, rfl, rfl⟩
    · intro _
      exact ⟨2, 4, by omega, rfl, rfl⟩
    · intro _
      exact ⟨3, 5, by omega, rfl, rfl⟩
    · intro i c hc
      rcases i with _ | _ | _ | _ | _ | i
      · exact ⟨natTableArgv, v1, rfl, h1⟩
      · exact ⟨preroutingChainArgv, v2, rfl, h2⟩
      · exact ⟨postroutingChainArgv, v3, rfl, h3⟩
      · exact ⟨forwardChainArgv, v4, rfl, h4⟩
      · exact ⟨postroutingRuleArgv phyIface, v5, rfl, h5⟩
      · simp at hc
  | ok v6 =>
    have htr : (exitNodeNatSetup env phyIface).1
        = [natTableArgv, preroutingChainArgv, postroutingChainArgv, forwardChainArgv,
           postroutingRuleArgv phyIface, forwardRuleArgv] := by
      simp [exitNodeNatSetup, addExitDestinationTable, addExitOriginPreroutingChain,
        addExitOriginPostroutingChain, addExitOriginForwardChain,
        addExitOriginPostroutingRule, addExitOriginForwardRule, policyCmd,
        h1, h2, h3, h4, h5, h6]
    rw [htr]
    refine ⟨?_, ?_, ?_, ?_⟩
    · intro c hc hcne
      simp only [List.mem_cons, List.not_mem_nil, or_false] at hc
      rcases hc with rfl | rfl | rfl | rfl | rfl | rfl
      · exact absurd rfl hcne
      · exact ⟨0, 1, by omega, rfl, rfl⟩
      · exact ⟨0, 2, by omega, rfl, rfl⟩
      · exact ⟨0, 3, by omega, rfl, rfl⟩
      · exact ⟨0, 4, by omega, rfl, rfl⟩
      · exact ⟨0, 5, by omega, rfl, rfl⟩
    · intro _
      exact ⟨2, 4, by omega, rfl, rfl⟩
    · intro _
      exact ⟨3, 5, by omega, rfl, rfl⟩
    · intro i c hc
      rcases i with _ | _ | _ | _ | _ | i
      · exact ⟨natTableArgv, v1, rfl, h1⟩
      · exact ⟨preroutingChainArgv, v2, rfl, h2⟩
      · exact ⟨postroutingChainArgv, v3, rfl, h3⟩
      · exact ⟨forwardChainArgv, v4, rfl, h4⟩
      · exact ⟨postroutingRuleArgv phyIface, v5, rfl, h5⟩
      · simp at hc

/-- C5 witness: under an all-successful command environment and the
physical interface `eth0`, the table precedes the prerouting chain and
the postrouting chain precedes the masquerade rule. -/
theorem exit_node_nat_setup_ordering_witness :
    occursBefore (exitNodeNatSetup allOkEnv "eth0").1 natTableArgv preroutingChainArgv ∧
    occursBefore (exitNodeNatSetup allOkEnv "eth0").1 postroutingChainArgv
      (postroutingRuleArgv "eth0") := by
  have h := exit_node_nat_setup_ordering allOkEnv "eth0"
  exact ⟨h.1 preroutingChainArgv (by decide) (by decide), h.2.1 (by decide)⟩

end Apex
